import Mathlib

/-!
Shallow embedding of `final_running_garch_app.py` (GARCH(1,1)-t volatility
and VaR batch pipeline).

Modelling conventions:
* Machine floats are modelled by `ℚ`; a float `NaN` stored in a pandas
  column is modelled by `none` in a `List (Option ℚ)` cell, matching the
  fact that a NaN cell reads back as a missing value.
* Dates are modelled by their position `0, 1, 2, …` in the shared date
  index of the uploaded sheet (`df_prices.index`); the spec requires
  strictly increasing dates, so positions identify dates uniquely.
* The external numeric collaborators are abstract parameters collected in
  `Ext`: `logFn` models `np.log` on positive inputs, `sqrtFn` models
  `np.sqrt` on non-negative inputs (a negative argument yields float NaN,
  modelled as `none` directly in `stdevList`), `fit` models the
  `arch_model(...).fit` call (line 66-72), returning the four parameters
  or failing (raising), and `ppfM` models `scipy.stats.t.ppf` (line 99),
  which as an external call can also fail.  `numpy` elementwise arithmetic
  does not raise and is modelled as total.
-/

namespace GarchApp

/-- A raw spreadsheet cell of an asset column: a numeric price or a
non-numeric token (`"-"`, text, empty), which `pd.to_numeric(errors="coerce")`
turns into NaN (line 31). -/
inductive Cell where
  | num (v : ℚ)
  | junk
deriving DecidableEq

/-- Numeric coercion of one cell (line 31): non-numeric tokens become
missing values. -/
def coerce : Cell → Option ℚ
  | .num v => some v
  | .junk => none

/-- The four scalars returned by the external GARCH fitter
(`omega`, `alpha[1]`, `beta[1]`, `nu`, lines 69-72). -/
structure Params where
  om : ℚ
  al : ℚ
  be : ℚ
  nu : ℚ
deriving DecidableEq

/-- External numeric collaborators of the pipeline (see module docstring). -/
structure Ext where
  logFn : ℚ → ℚ
  sqrtFn : ℚ → ℚ
  fit : List ℚ → Option Params
  ppfM : ℚ → ℚ → Option ℚ

/-- One row of the `Model_Parameters` sheet (lines 74-81). -/
structure ParamRow where
  asset : String
  omega : ℚ
  alpha : ℚ
  beta : ℚ
  persistence : ℚ
  nu : ℚ
deriving DecidableEq

/-- The accumulated result state of the batch loop: the three date-indexed
column containers `all_returns`, `all_stdevs`, `all_var_99` (lines 39-41),
the parameter rows `model_params` (line 42), and the sequence of progress
values reported to the progress bar (lines 55, 62, 108). -/
structure Tables where
  returnsCols : List (String × List (Option ℚ))
  stdevCols : List (String × List (Option ℚ))
  varCols : List (String × List (Option ℚ))
  params : List ParamRow
  progress : List ℚ
deriving DecidableEq

/-- `series = df_prices[asset].dropna()` (line 51), keeping the shared-index
position of each retained observation; `i` is the position of the head cell. -/
def validFrom (i : ℕ) : List (Option ℚ) → List (ℕ × ℚ)
  | [] => []
  | none :: rest => validFrom (i + 1) rest
  | some v :: rest => (i, v) :: validFrom (i + 1) rest

/-- The dense price series of one asset column (line 51). -/
def validObs (col : List (Option ℚ)) : List (ℕ × ℚ) := validFrom 0 col

/-- `series / series.shift(1)` (line 59): the first entry is NaN (`none`),
entry at series position `t > 0` is `price[t] / price[t-1]`. -/
def ratioShift (s : List (ℕ × ℚ)) : List (ℕ × Option ℚ) :=
  match s with
  | [] => []
  | x :: rest => (x.1, none) :: (rest.zip s).map (fun pc => (pc.1.1, some (pc.1.2 / pc.2.2)))

/-- `ret = 100 * np.log(series / series.shift(1)).dropna()` (line 59):
scale the log-ratio by 100 and drop the undefined first entry. -/
def logReturns (f : ℚ → ℚ) (s : List (ℕ × ℚ)) : List (ℕ × ℚ) :=
  (ratioShift s).filterMap (fun dc => dc.2.map (fun r => (dc.1, 100 * f r)))

/-- `np.var(xs)` (line 88): population variance, mean of squared deviations
from the mean, divisor `len(xs)`. -/
def popVar (xs : List ℚ) : ℚ :=
  ((xs.map (fun x => (x - xs.sum / (xs.length : ℚ)) ^ 2)).sum) / (xs.length : ℚ)

/-- The defined part of the variance path: value at path index `99 + k`.
`k = 0` is the seed `np.var(ret.values[:100])` (line 88); the step is the
GARCH(1,1) recursion `sigma2[t] = om + al * r_sq[t-1] + be * sigma2[t-1]`
(line 94), with `t = 99 + (k+1)`, so `t - 1 = 99 + k`. -/
def sigma2From99 (om al be : ℚ) (r : List ℚ) : ℕ → ℚ
  | 0 => popVar (r.take 100)
  | k + 1 => om + al * (r.getD (99 + k) 0) ^ 2 + be * sigma2From99 om al be r k

/-- The variance path `sigma2` (lines 84-94): length `T = len(ret)`, NaN
(`none`) at indices `0..98`, defined from index 99 on. -/
def sigma2List (om al be : ℚ) (r : List ℚ) : List (Option ℚ) :=
  (List.range r.length).map
    (fun t => if t < 99 then none else some (sigma2From99 om al be r (t - 99)))

/-- `stdev = np.sqrt(sigma2)` (line 98): NaN stays NaN, the square root of a
negative float is NaN (hence `none`), otherwise `sqrtFn`. -/
def stdevList (sq : ℚ → ℚ) (sig : List (Option ℚ)) : List (Option ℚ) :=
  sig.map (fun o => o.bind (fun v => if 0 ≤ v then some (sq v) else none))

/-- `t_quantile * stdev` (line 103): scalar times path, NaN propagates. -/
def varList (q : ℚ) (std : List (Option ℚ)) : List (Option ℚ) :=
  std.map (Option.map (fun s => q * s))

/-- Assigning a sparse series into a date-indexed container column
(`all_returns[asset] = ret`, line 101): the shared index has `n` dates,
dates not carried by the series become NaN. -/
def alignVals (n : ℕ) (s : List (ℕ × ℚ)) : List (Option ℚ) :=
  (List.range n).map (fun d => (s.find? (fun p => p.1 == d)).map Prod.snd)

/-- Same alignment for a series whose values may themselves be NaN
(`pd.Series(stdev, index=ret.index)`, lines 102-103). -/
def alignOpts (n : ℕ) (s : List (ℕ × Option ℚ)) : List (Option ℚ) :=
  (List.range n).map (fun d => (s.find? (fun p => p.1 == d)).bind Prod.snd)

/-- The quantile probability `0.01` passed to `student_t.ppf` (line 99). -/
def pLevel : ℚ := 1 / 100

/-- The `Model_Parameters` row appended for a fitted asset (lines 74-81). -/
def fitRow (name : String) (p : Params) : ParamRow :=
  ⟨name, p.om, p.al, p.be, p.al + p.be, p.nu⟩

/-- The body of the per-asset loop (lines 50-106), without the progress
call: length guards (lines 54, 61), then the `try` block: fit (fails ⇒
state unchanged), parameter row appended (line 74), variance path, stdev,
`t.ppf` (line 99; fails ⇒ the parameter row survives, nothing else is
added), column assignments (lines 101-103).  `n` is the length of the
shared date index. -/
def processAsset (E : Ext) (n : ℕ) (st : Tables) (a : String × List (Option ℚ)) : Tables :=
  let s := validObs a.2
  if s.length < 100 then st
  else
    let ret := logReturns E.logFn s
    if ret.length < 100 then st
    else
      match E.fit (ret.map Prod.snd) with
      | none => st
      | some p =>
        let st1 := { st with params := st.params ++ [fitRow a.1 p] }
        let sig := sigma2List p.om p.al p.be (ret.map Prod.snd)
        let std := stdevList E.sqrtFn sig
        match E.ppfM pLevel p.nu with
        | none => st1
        | some q =>
          { st1 with
            returnsCols := st1.returnsCols ++ [(a.1, alignVals n ret)]
            stdevCols := st1.stdevCols ++ [(a.1, alignOpts n ((ret.map Prod.fst).zip std))]
            varCols := st1.varCols ++
              [(a.1, alignOpts n ((ret.map Prod.fst).zip (varList q std)))] }

/-- One iteration of the batch loop: process the asset, then report progress
`(i + 1) / N` — the code reports exactly this value once on every control
path (lines 55, 62, 108). -/
def step (E : Ext) (n N : ℕ) (st : Tables) (ia : ℕ × String × List (Option ℚ)) : Tables :=
  let st1 := processAsset E n st ia.2
  { st1 with progress := st1.progress ++ [((ia.1 : ℚ) + 1) / (N : ℚ)] }

/-- The empty containers created before the loop (lines 39-42, 47). -/
def initTables : Tables := ⟨[], [], [], [], []⟩

/-- The batch loop `for i, asset in enumerate(assets)` (lines 50-108). -/
def runBatch (E : Ext) (n : ℕ) (cols : List (String × List (Option ℚ))) : Tables :=
  (cols.enum).foldl (step E n cols.length) initTables

/-- `df_prices` (lines 31-34): coerce every cell to numeric and drop the
columns that are entirely missing (`dropna(axis=1, how="all")`). -/
def cleanPrices (cols : List (String × List Cell)) : List (String × List (Option ℚ)) :=
  (cols.map (fun a => (a.1, a.2.map coerce))).filter (fun a => a.2.any Option.isSome)

/-- The whole pipeline: the first component is the `Original_Prices` sheet
(`df_prices`, written unchanged at line 132), the second the loop results
(`Returns_Scaled`, `GARCH_Stdev`, `GARCH_VaR`, `Model_Parameters`). -/
def pipeline (E : Ext) (n : ℕ) (cols : List (String × List Cell)) :
    List (String × List (Option ℚ)) × Tables :=
  (cleanPrices cols, runBatch E n (cleanPrices cols))

/-- Per-asset outcome of the `Returns_Scaled` container: present exactly
when both guards pass, the fit succeeds and the quantile call succeeds. -/
def retOut (E : Ext) (n : ℕ) (a : String × List (Option ℚ)) :
    Option (String × List (Option ℚ)) :=
  let s := validObs a.2
  if s.length < 100 then none
  else
    let ret := logReturns E.logFn s
    if ret.length < 100 then none
    else
      match E.fit (ret.map Prod.snd) with
      | none => none
      | some p =>
        match E.ppfM pLevel p.nu with
        | none => none
        | some _ => some (a.1, alignVals n ret)

/-- Per-asset outcome of the `GARCH_Stdev` container. -/
def stdOut (E : Ext) (n : ℕ) (a : String × List (Option ℚ)) :
    Option (String × List (Option ℚ)) :=
  let s := validObs a.2
  if s.length < 100 then none
  else
    let ret := logReturns E.logFn s
    if ret.length < 100 then none
    else
      match E.fit (ret.map Prod.snd) with
      | none => none
      | some p =>
        match E.ppfM pLevel p.nu with
        | none => none
        | some _ =>
          some (a.1, alignOpts n ((ret.map Prod.fst).zip
            (stdevList E.sqrtFn (sigma2List p.om p.al p.be (ret.map Prod.snd)))))

/-- Per-asset outcome of the `GARCH_VaR` container. -/
def varOut (E : Ext) (n : ℕ) (a : String × List (Option ℚ)) :
    Option (String × List (Option ℚ)) :=
  let s := validObs a.2
  if s.length < 100 then none
  else
    let ret := logReturns E.logFn s
    if ret.length < 100 then none
    else
      match E.fit (ret.map Prod.snd) with
      | none => none
      | some p =>
        match E.ppfM pLevel p.nu with
        | none => none
        | some q =>
          some (a.1, alignOpts n ((ret.map Prod.fst).zip
            (varList q (stdevList E.sqrtFn (sigma2List p.om p.al p.be (ret.map Prod.snd))))))

/-- Per-asset outcome of the `Model_Parameters` rows: present as soon as the
guards pass and the fit succeeds — the append at line 74 happens before the
quantile call at line 99, so a quantile failure does not remove it. -/
def paramOut (E : Ext) (a : String × List (Option ℚ)) : Option ParamRow :=
  let s := validObs a.2
  if s.length < 100 then none
  else
    let ret := logReturns E.logFn s
    if ret.length < 100 then none
    else
      match E.fit (ret.map Prod.snd) with
      | none => none
      | some p => some (fitRow a.1 p)

/-- `ws.set_row(101, None, blue_fmt)` (line 130): the highlighted sheet row,
0-based, in the written workbook. -/
def highlightedSheetRow : ℕ := 101

/-- `to_excel` writes one header row at sheet row 0, so sheet row 101 is the
data row at position 100 of the shared date index. -/
def highlightedDataPos : ℕ := highlightedSheetRow - 1

/-- The shared-index position ("date") of the first defined (seed) entry of
an asset's paths: the date at 0-based index 99 of its ReturnSeries. -/
def seedRowPos (f : ℚ → ℚ) (col : List (Option ℚ)) : Option ℕ :=
  ((logReturns f (validObs col)).map Prod.fst)[99]?

/-- Bounds-checked write `a[i] = v` into the `sigma2` array: fails (numpy
`IndexError`) when `i` is out of range. -/
def writeAt (a : List (Option ℚ)) (i : ℕ) (v : Option ℚ) : Option (List (Option ℚ)) :=
  if i < a.length then some (a.set i v) else none

/-- `sigma2 = np.full(T, np.nan); sigma2[99] = np.var(ret.values[:100])`
(lines 85-88), with the index-99 write bounds-checked. -/
def seedChecked (r : List ℚ) : Option (List (Option ℚ)) :=
  writeAt (List.replicate r.length (none : Option ℚ)) 99 (some (popVar (r.take 100)))

/-- One bounds-checked iteration of the recursion loop (line 94): read
`r_sq[t-1]`, read `sigma2[t-1]` (a NaN cell propagates as NaN), write
`sigma2[t]`; any out-of-range access fails. -/
def stepChecked (om al be : ℚ) (r : List ℚ) (a : List (Option ℚ)) (t : ℕ) :
    Option (List (Option ℚ)) :=
  match r[t - 1]? with
  | none => none
  | some rv =>
    match a[t - 1]? with
    | none => none
    | some pv => writeAt a t (pv.map (fun p => om + al * rv ^ 2 + be * p))

/-- The bounds-checked variance reconstruction: seed write, then the loop
`for t in range(100, T)` (lines 84-94); returns `none` iff some array
access was out of range. -/
def sigma2Checked (om al be : ℚ) (r : List ℚ) : Option (List (Option ℚ)) :=
  match seedChecked r with
  | none => none
  | some a0 => (List.range' 100 (r.length - 100)).foldlM (stepChecked om al be r) a0

/-- The variance path defined only up to (excluding) index `m`: the loop
invariant state of the checked reconstruction. -/
def sigma2Upto (om al be : ℚ) (r : List ℚ) (m : ℕ) : List (Option ℚ) :=
  (List.range r.length).map
    (fun t => if t < 99 ∨ m ≤ t then none else some (sigma2From99 om al be r (t - 99)))

/-- A concrete external-collaborator instance whose fitter always succeeds
with fixed parameters and whose quantile call succeeds (used for concrete
evaluations). -/
def extOkFit : Ext :=
  ⟨fun _ => 0, fun _ => 0, fun _ => some ⟨0, 0, 0, 1⟩, fun _ _ => some (-1)⟩

/-- A concrete external-collaborator instance whose fitter succeeds but
whose quantile call fails (models `scipy.stats.t.ppf` raising). -/
def extPpfFail : Ext :=
  ⟨fun _ => 0, fun _ => 0, fun _ => some ⟨0, 0, 0, 1⟩, fun _ _ => none⟩

/-! ### Basic facts about the embedded operations -/

theorem rangeMap_getElem? {α : Type} (n t : ℕ) (f : ℕ → α) :
    ((List.range n).map f)[t]? = if t < n then some (f t) else none := by
  by_cases h : t < n
  · simp [List.getElem?_map, List.getElem?_range, h]
  · simp only [h, if_false]
    rw [List.getElem?_eq_none]
    simpa using Nat.le_of_not_lt h

theorem validFrom_replicate (c : ℚ) : ∀ (n i : ℕ),
    validFrom i (List.replicate n (some c)) = (List.range' i n).map (fun j => (j, c)) := by
  intro n
  induction n with
  | zero => intro i; rfl
  | succ m ih =>
    intro i
    rw [List.replicate_succ, List.range'_succ]
    simp only [validFrom, ih (i + 1), List.map_cons]

theorem validObs_replicate (c : ℚ) (n : ℕ) :
    validObs (List.replicate n (some c)) = (List.range' 0 n).map (fun j => (j, c)) :=
  validFrom_replicate c n 0

theorem validFrom_dense_pos : ∀ (col : List (Option ℚ)) (i j : ℕ),
    (∀ m, m ≤ j → ∃ v, col[m]? = some (some v)) →
    ((validFrom i col).map Prod.fst)[j]? = some (i + j) := by
  intro col
  induction col with
  | nil =>
    intro i j h
    obtain ⟨v, hv⟩ := h 0 (Nat.zero_le j)
    simp at hv
  | cons c rest ih =>
    intro i j h
    obtain ⟨v, hv⟩ := h 0 (Nat.zero_le j)
    simp only [List.getElem?_cons_zero, Option.some.injEq] at hv
    subst hv
    cases j with
    | zero => simp [validFrom]
    | succ j' =>
      have step : ∀ m, m ≤ j' → ∃ v, rest[m]? = some (some v) := by
        intro m hm
        obtain ⟨w, hw⟩ := h (m + 1) (Nat.succ_le_succ hm)
        exact ⟨w, by simpa using hw⟩
      simp only [validFrom, List.map_cons, List.getElem?_cons_succ, ih (i + 1) j' step]
      congr 1
      omega

theorem ratioShift_cons (x : ℕ × ℚ) (rest : List (ℕ × ℚ)) :
    ratioShift (x :: rest) =
      (x.1, none) :: (rest.zip (x :: rest)).map (fun pc => (pc.1.1, some (pc.1.2 / pc.2.2))) := rfl

theorem logReturns_cons (f : ℚ → ℚ) (x : ℕ × ℚ) (rest : List (ℕ × ℚ)) :
    logReturns f (x :: rest) =
      (rest.zip (x :: rest)).map (fun pc => (pc.1.1, 100 * f (pc.1.2 / pc.2.2))) := by
  unfold logReturns
  rw [ratioShift_cons, List.filterMap_cons_none rfl, List.filterMap_map]
  exact congrFun (List.filterMap_eq_map _) _

theorem logReturns_length (f : ℚ → ℚ) (s : List (ℕ × ℚ)) :
    (logReturns f s).length = s.length - 1 := by
  cases s with
  | nil => rfl
  | cons x rest =>
    rw [logReturns_cons, List.length_map, List.length_zip]
    simp [Nat.min_def]

theorem logReturns_map_fst (f : ℚ → ℚ) (s : List (ℕ × ℚ)) :
    (logReturns f s).map Prod.fst = (s.map Prod.fst).tail := by
  cases s with
  | nil => rfl
  | cons x rest =>
    rw [logReturns_cons, List.map_map]
    have : (Prod.fst ∘ fun pc : (ℕ × ℚ) × ℕ × ℚ => (pc.1.1, 100 * f (pc.1.2 / pc.2.2)))
        = Prod.fst ∘ Prod.fst := rfl
    rw [this, ← List.map_map, List.map_fst_zip _ _ (by simp), List.map_cons, List.tail_cons]

theorem logReturns_getElem? (f : ℚ → ℚ) (s : List (ℕ × ℚ)) (t : ℕ)
    (dprev dcur : ℕ) (vprev vcur : ℚ)
    (hp : s[t]? = some (dprev, vprev)) (hc : s[t + 1]? = some (dcur, vcur)) :
    (logReturns f s)[t]? = some (dcur, 100 * f (vcur / vprev)) := by
  cases s with
  | nil => simp at hp
  | cons x rest =>
    rw [logReturns_cons, List.getElem?_map]
    have hz : (rest.zip (x :: rest))[t]? = some ((dcur, vcur), (dprev, vprev)) := by
      rw [List.getElem?_zip_eq_some]
      exact ⟨by simpa using hc, hp⟩
    rw [hz]
    rfl

theorem sigma2List_length (om al be : ℚ) (r : List ℚ) :
    (sigma2List om al be r).length = r.length := by
  simp [sigma2List]

theorem sigma2List_getElem? (om al be : ℚ) (r : List ℚ) (t : ℕ) (h : t < r.length) :
    (sigma2List om al be r)[t]? =
      some (if t < 99 then none else some (sigma2From99 om al be r (t - 99))) := by
  rw [sigma2List, rangeMap_getElem?, if_pos h]

theorem stdevList_getElem? (sq : ℚ → ℚ) (sig : List (Option ℚ)) (t : ℕ) :
    (stdevList sq sig)[t]? =
      sig[t]?.map (fun o => o.bind (fun v => if 0 ≤ v then some (sq v) else none)) := by
  rw [stdevList, List.getElem?_map]

theorem varList_getElem? (q : ℚ) (std : List (Option ℚ)) (t : ℕ) :
    (varList q std)[t]? = std[t]?.map (Option.map (fun s => q * s)) := by
  rw [varList, List.getElem?_map]

theorem popVar_nonneg (xs : List ℚ) : 0 ≤ popVar xs := by
  unfold popVar
  apply div_nonneg _ (by positivity)
  apply List.sum_nonneg
  intro x hx
  simp only [List.mem_map] at hx
  obtain ⟨y, _, hy⟩ := hx
  rw [← hy]
  positivity

theorem sigma2From99_nonneg (om al be : ℚ) (r : List ℚ)
    (hom : 0 ≤ om) (hal : 0 ≤ al) (hbe : 0 ≤ be) :
    ∀ k, 0 ≤ sigma2From99 om al be r k := by
  intro k
  induction k with
  | zero => exact popVar_nonneg _
  | succ m ih =>
    rw [sigma2From99]
    have h1 : 0 ≤ al * r.getD (99 + m) 0 ^ 2 := by positivity
    have h2 : 0 ≤ be * sigma2From99 om al be r m := mul_nonneg hbe ih
    linarith

/-! ### Decomposition of the batch orchestrator -/

theorem processAsset_decomp (E : Ext) (n : ℕ) (st : Tables) (a : String × List (Option ℚ)) :
    processAsset E n st a =
      ⟨st.returnsCols ++ (retOut E n a).toList,
       st.stdevCols ++ (stdOut E n a).toList,
       st.varCols ++ (varOut E n a).toList,
       st.params ++ (paramOut E a).toList,
       st.progress⟩ := by
  unfold processAsset retOut stdOut varOut paramOut
  by_cases h1 : (validObs a.2).length < 100
  · simp [h1]
  · simp only [h1, if_false]
    by_cases h2 : (logReturns E.logFn (validObs a.2)).length < 100
    · simp [h2]
    · simp only [h2, if_false]
      cases hf : E.fit ((logReturns E.logFn (validObs a.2)).map Prod.snd) with
      | none => simp
      | some p =>
        simp only []
        split <;> rename_i hq <;> simp [hq]

theorem foldl_step_decomp (E : Ext) (n N : ℕ) :
    ∀ (cols : List (String × List (Option ℚ))) (i : ℕ) (st : Tables),
    List.foldl (step E n N) st (List.enumFrom i cols) =
      ⟨st.returnsCols ++ cols.filterMap (retOut E n),
       st.stdevCols ++ cols.filterMap (stdOut E n),
       st.varCols ++ cols.filterMap (varOut E n),
       st.params ++ cols.filterMap (paramOut E),
       st.progress ++ (List.range cols.length).map (fun k => (((i + k : ℕ) : ℚ) + 1) / (N : ℚ))⟩ := by
  intro cols
  induction cols with
  | nil => intro i st; simp [List.enumFrom]
  | cons c t ih =>
    intro i st
    have hstep : step E n N st (i, c) =
        ⟨st.returnsCols ++ (retOut E n c).toList,
         st.stdevCols ++ (stdOut E n c).toList,
         st.varCols ++ (varOut E n c).toList,
         st.params ++ (paramOut E c).toList,
         st.progress ++ [((i : ℚ) + 1) / (N : ℚ)]⟩ := by
      unfold step
      rw [processAsset_decomp]
    rw [show List.enumFrom i (c :: t) = (i, c) :: List.enumFrom (i + 1) t from rfl,
      List.foldl_cons, hstep, ih (i + 1)]
    simp only [Tables.mk.injEq, List.filterMap_cons, List.length_cons, List.append_assoc]
    refine ⟨?_, ?_, ?_, ?_, ?_⟩
    · cases retOut E n c <;> simp
    · cases stdOut E n c <;> simp
    · cases varOut E n c <;> simp
    · cases paramOut E c <;> simp
    · congr 1
      rw [List.range_succ_eq_map, List.map_cons, List.map_map, List.singleton_append]
      refine List.cons_eq_cons.mpr ⟨by norm_num, ?_⟩
      apply List.map_congr_left
      intro k _
      have hik : i + 1 + k = i + (k + 1) := by omega
      simp only [Function.comp_apply, Nat.succ_eq_add_one, hik]

theorem runBatch_decomp (E : Ext) (n : ℕ) (cols : List (String × List (Option ℚ))) :
    runBatch E n cols =
      ⟨cols.filterMap (retOut E n),
       cols.filterMap (stdOut E n),
       cols.filterMap (varOut E n),
       cols.filterMap (paramOut E),
       (List.range cols.length).map (fun k : ℕ => ((k : ℚ) + 1) / (cols.length : ℚ))⟩ := by
  rw [runBatch, List.enum_eq_enumFrom, foldl_step_decomp]
  simp only [initTables, List.nil_append, Nat.zero_add]

theorem outs_none_of_short (E : Ext) (n : ℕ) (a : String × List (Option ℚ))
    (h : (validObs a.2).length < 100) :
    retOut E n a = none ∧ stdOut E n a = none ∧ varOut E n a = none ∧ paramOut E a = none := by
  unfold retOut stdOut varOut paramOut
  simp [h]

/-! ### The bounds-checked variance reconstruction -/

theorem sigma2Upto_length (om al be : ℚ) (r : List ℚ) (m : ℕ) :
    (sigma2Upto om al be r m).length = r.length := by
  simp [sigma2Upto]

theorem sigma2Upto_getElem? (om al be : ℚ) (r : List ℚ) (m t : ℕ) :
    (sigma2Upto om al be r m)[t]? =
      if t < r.length then
        some (if t < 99 ∨ m ≤ t then none else some (sigma2From99 om al be r (t - 99)))
      else none := by
  rw [sigma2Upto, rangeMap_getElem?]

theorem seedChecked_eq (om al be : ℚ) (r : List ℚ) (h : 100 ≤ r.length) :
    seedChecked r = some (sigma2Upto om al be r 100) := by
  unfold seedChecked writeAt
  rw [if_pos (by simp; omega)]
  congr 1
  apply List.ext_getElem?
  intro j
  rw [sigma2Upto_getElem?]
  by_cases hj : j < r.length
  · by_cases h99 : j = 99
    · subst h99
      rw [List.getElem?_set_eq_of_lt _ (by simp; omega), if_pos hj, if_neg (by omega)]
      rfl
    · rw [List.getElem?_set_ne (by omega), List.getElem?_replicate, if_pos hj, if_pos hj]
      have : j < 99 ∨ 100 ≤ j := by omega
      simp [this]
  · rw [if_neg hj, List.getElem?_eq_none]
    simp only [List.length_set, List.length_replicate]
    omega

theorem stepChecked_eq (om al be : ℚ) (r : List ℚ) (u : ℕ)
    (hu : 100 ≤ u) (hlt : u < r.length) :
    stepChecked om al be r (sigma2Upto om al be r u) u =
      some (sigma2Upto om al be r (u + 1)) := by
  have hu1 : u - 1 < r.length := by omega
  obtain ⟨rv, hrv⟩ : ∃ v, r[u - 1]? = some v := ⟨r[u - 1], List.getElem?_eq_getElem hu1⟩
  have hprev : (sigma2Upto om al be r u)[u - 1]? =
      some (some (sigma2From99 om al be r (u - 1 - 99))) := by
    rw [sigma2Upto_getElem?, if_pos hu1, if_neg (by omega)]
  rw [stepChecked, hrv, hprev]
  show writeAt (sigma2Upto om al be r u) u
      (some (om + al * rv ^ 2 + be * sigma2From99 om al be r (u - 1 - 99))) =
    some (sigma2Upto om al be r (u + 1))
  unfold writeAt
  rw [if_pos (by rw [sigma2Upto_length]; exact hlt)]
  congr 1
  apply List.ext_getElem?
  intro j
  rw [sigma2Upto_getElem?]
  by_cases hj : j < r.length
  · by_cases hju : j = u
    · subst hju
      rw [List.getElem?_set_eq_of_lt _ (by rw [sigma2Upto_length]; exact hj)]
      rw [if_pos hj, if_neg (by omega)]
      have hsub : j - 99 = (j - 1 - 99) + 1 := by omega
      have hget : r.getD (99 + (j - 1 - 99)) 0 = rv := by
        rw [show 99 + (j - 1 - 99) = j - 1 by omega, List.getD_eq_getElem?_getD, hrv]
        rfl
      rw [hsub, sigma2From99, hget]
    · rw [List.getElem?_set_ne (by omega), sigma2Upto_getElem?, if_pos hj, if_pos hj]
      have : (j < 99 ∨ u ≤ j) ↔ (j < 99 ∨ u + 1 ≤ j) := by omega
      simp only [this]
  · rw [if_neg hj, List.getElem?_eq_none]
    simp only [List.length_set, sigma2Upto_length]
    omega

theorem foldlM_stepChecked (om al be : ℚ) (r : List ℚ) :
    ∀ (k u : ℕ), 100 ≤ u → u + k ≤ r.length →
    (List.range' u k).foldlM (stepChecked om al be r) (sigma2Upto om al be r u) =
      some (sigma2Upto om al be r (u + k)) := by
  intro k
  induction k with
  | zero => intro u _ _; rfl
  | succ m ih =>
    intro u hu hle
    rw [List.range'_succ, List.foldlM_cons,
      stepChecked_eq om al be r u hu (by omega)]
    have := ih (u + 1) (by omega) (by omega)
    simpa [Nat.add_assoc, Nat.add_comm 1 m] using this

theorem sigma2Upto_top (om al be : ℚ) (r : List ℚ) :
    sigma2Upto om al be r r.length = sigma2List om al be r := by
  unfold sigma2Upto sigma2List
  apply List.map_congr_left
  intro t ht
  rw [List.mem_range] at ht
  have : (t < 99 ∨ r.length ≤ t) ↔ t < 99 := by omega
  simp only [this]

/-! ### Claim theorems -/

/-- **C3.** For every processed asset with ReturnSeries of length `T ≥ 100`,
the variance path entry at 0-based index 99 equals the population variance
(mean of squared deviations from the mean, divisor 100, not the unbiased
estimator) of the first 100 returns, and entries at indices `0..98` are
missing (NaN), never zero. -/
theorem c3_seed_variance (om al be : ℚ) (r : List ℚ) (h : 100 ≤ r.length) :
    (sigma2List om al be r)[99]? =
      some (some
        (((r.take 100).map (fun x => (x - (r.take 100).sum / 100) ^ 2)).sum / 100)) ∧
    ∀ t, t < 99 → (sigma2List om al be r)[t]? = some none := by
  constructor
  · rw [sigma2List_getElem? om al be r 99 (by omega), if_neg (by omega)]
    show some (some (popVar (r.take 100))) = _
    have hlen : (r.take 100).length = 100 := by rw [List.length_take]; omega
    unfold popVar
    rw [hlen]
    norm_num
  · intro t ht
    rw [sigma2List_getElem? om al be r t (by omega), if_pos ht]

theorem c3_seed_variance_witness :
    100 ≤ (List.replicate 100 (0 : ℚ)).length ∧
    ((sigma2List 0 0 0 (List.replicate 100 (0 : ℚ)))[99]? =
      some (some ((((List.replicate 100 (0 : ℚ)).take 100).map
        (fun x => (x - ((List.replicate 100 (0 : ℚ)).take 100).sum / 100) ^ 2)).sum / 100)) ∧
    ∀ t, t < 99 → (sigma2List 0 0 0 (List.replicate 100 (0 : ℚ)))[t]? = some none) :=
  ⟨by simp, c3_seed_variance 0 0 0 _ (by simp)⟩

/-- **C4.** For every processed asset with `T ≥ 100` and fitted parameters,
the variance path satisfies, for every `t` with `100 ≤ t ≤ T-1`,
`path[t] = omega + alpha * return[t-1]^2 + beta * path[t-1]` (0-based),
with no clamping; and when `T = 100` exactly, only the seed entry is
defined and no recursive step runs. -/
theorem c4_recursion (om al be : ℚ) (r : List ℚ) :
    (∀ t vprev rt, 100 ≤ t → t < r.length →
        (sigma2List om al be r)[t - 1]? = some (some vprev) →
        r[t - 1]? = some rt →
        (sigma2List om al be r)[t]? = some (some (om + al * rt ^ 2 + be * vprev))) ∧
    (r.length = 100 → ∀ t, t < 100 → t ≠ 99 →
        (sigma2List om al be r)[t]? = some none) := by
  constructor
  · intro t vprev rt ht100 htlen hprev hrt
    rw [sigma2List_getElem? om al be r (t - 1) (by omega), if_neg (by omega)] at hprev
    simp only [Option.some.injEq] at hprev
    rw [sigma2List_getElem? om al be r t htlen, if_neg (by omega)]
    have hsub : t - 99 = (t - 1 - 99) + 1 := by omega
    have hget : r.getD (99 + (t - 1 - 99)) 0 = rt := by
      rw [show 99 + (t - 1 - 99) = t - 1 by omega, List.getD_eq_getElem?_getD, hrt]
      rfl
    rw [hsub, sigma2From99, hget, hprev]
  · intro hlen t ht htne
    rw [sigma2List_getElem? om al be r t (by omega), if_pos (by omega)]

theorem c4_recursion_witness :
    (sigma2List 0 0 0 (List.replicate 101 (0 : ℚ)))[100]? =
      some (some (0 + 0 * (0 : ℚ) ^ 2 +
        0 * sigma2From99 0 0 0 (List.replicate 101 (0 : ℚ)) 0)) :=
  (c4_recursion 0 0 0 (List.replicate 101 (0 : ℚ))).1 100
    (sigma2From99 0 0 0 (List.replicate 101 (0 : ℚ)) 0) 0
    (by norm_num) (by simp)
    (by rw [show (100 : ℕ) - 1 = 99 from rfl,
          sigma2List_getElem? 0 0 0 _ 99 (by norm_num), if_neg (by omega)])
    (by rw [show (100 : ℕ) - 1 = 99 from rfl]
        simp)

/-- **C5.** For every processed asset and every index `t` at which the
variance path is defined, `VaR[t] = q * sqrt(path[t])` where `q` models the
Student-t inverse CDF at `p = 0.01` with `nu` degrees of freedom (for
`nu > 0` that quantile is strictly negative, whence the hypothesis
`q ≤ 0`); every defined VaR entry is `≤ 0`; and VaR is undefined exactly
where the variance path is undefined.  The parameter non-negativity
hypotheses reflect the fitter contract (§4.2/§4.3 of the spec): they make
every defined variance entry non-negative, so no square root of a negative
value (float NaN) arises. -/
theorem c5_var_mapping (sq : ℚ → ℚ) (q om al be : ℚ) (r : List ℚ)
    (hq : q ≤ 0) (hsq : ∀ v, 0 ≤ v → 0 ≤ sq v)
    (hom : 0 ≤ om) (hal : 0 ≤ al) (hbe : 0 ≤ be) :
    (∀ (t : ℕ) (v : ℚ), (sigma2List om al be r)[t]? = some (some v) →
        (varList q (stdevList sq (sigma2List om al be r)))[t]? = some (some (q * sq v)) ∧
        q * sq v ≤ 0) ∧
    (∀ t : ℕ, (sigma2List om al be r)[t]? = some none →
        (varList q (stdevList sq (sigma2List om al be r)))[t]? = some none) ∧
    (∀ t : ℕ, (sigma2List om al be r)[t]? = none →
        (varList q (stdevList sq (sigma2List om al be r)))[t]? = none) := by
  have hnn : ∀ (t : ℕ) (v : ℚ), (sigma2List om al be r)[t]? = some (some v) → 0 ≤ v := by
    intro t v hv
    by_cases ht : t < r.length
    · rw [sigma2List_getElem? om al be r t ht] at hv
      by_cases h99 : t < 99
      · rw [if_pos h99] at hv
        simp at hv
      · rw [if_neg h99] at hv
        simp only [Option.some.injEq] at hv
        rw [← hv]
        exact sigma2From99_nonneg om al be r hom hal hbe _
    · rw [List.getElem?_eq_none (by rw [sigma2List_length]; omega)] at hv
      simp at hv
  refine ⟨?_, ?_, ?_⟩
  · intro t v hv
    have h0 : 0 ≤ v := hnn t v hv
    constructor
    · rw [varList_getElem?, stdevList_getElem?, hv]
      simp [h0]
    · exact mul_nonpos_of_nonpos_of_nonneg hq (hsq v h0)
  · intro t hv
    rw [varList_getElem?, stdevList_getElem?, hv]
    rfl
  · intro t hv
    rw [varList_getElem?, stdevList_getElem?, hv]
    rfl

theorem c5_var_mapping_witness :
    (varList (-1) (stdevList (fun v => v)
        (sigma2List 0 0 0 (List.replicate 100 (0 : ℚ)))))[99]? =
      some (some ((-1) * sigma2From99 0 0 0 (List.replicate 100 (0 : ℚ)) 0)) ∧
    (-1) * sigma2From99 0 0 0 (List.replicate 100 (0 : ℚ)) 0 ≤ 0 :=
  (c5_var_mapping (fun v => v) (-1) 0 0 0 (List.replicate 100 (0 : ℚ))
      (by norm_num) (fun v hv => hv) le_rfl le_rfl le_rfl).1 99
    (sigma2From99 0 0 0 (List.replicate 100 (0 : ℚ)) 0)
    (by rw [sigma2List_getElem? 0 0 0 _ 99 (by simp), if_neg (by omega)])

/-- **C8.** For every asset whose dense PriceSeries consists of positive
prices, the derived ReturnSeries has entry `t` equal to
`100 * ln(price[t+1] / price[t])` for consecutive retained prices (the
entry is dated at the later price), the first (undefined) return is
dropped, and the ReturnSeries is exactly one entry shorter than its source
PriceSeries.  `f` models `np.log`; the positivity hypothesis is the regime
in which `np.log` returns a finite value on every ratio, so the total
abstract `f` is a faithful model. -/
theorem c8_log_returns (f : ℚ → ℚ) (s : List (ℕ × ℚ))
    (hpos : ∀ p ∈ s, 0 < p.2) :
    (logReturns f s).length = s.length - 1 ∧
    ∀ t dprev vprev dcur vcur,
      s[t]? = some (dprev, vprev) → s[t + 1]? = some (dcur, vcur) →
      (logReturns f s)[t]? = some (dcur, 100 * f (vcur / vprev)) :=
  ⟨logReturns_length f s,
   fun t dprev vprev dcur vcur hp hc => logReturns_getElem? f s t dprev dcur vprev vcur hp hc⟩

theorem c8_log_returns_witness :
    ((logReturns (fun _ => 0) [((0 : ℕ), (1 : ℚ)), (1, 1)]).length =
      [((0 : ℕ), (1 : ℚ)), (1, 1)].length - 1) ∧
    (logReturns (fun _ => 0) [((0 : ℕ), (1 : ℚ)), (1, 1)])[0]? =
      some (1, 100 * (fun _ => (0 : ℚ)) ((1 : ℚ) / 1)) :=
  ⟨(c8_log_returns (fun _ => 0) [((0 : ℕ), (1 : ℚ)), (1, 1)] (by norm_num)).1,
   (c8_log_returns (fun _ => 0) [((0 : ℕ), (1 : ℚ)), (1, 1)] (by norm_num)).2
      0 0 1 1 1 rfl rfl⟩

/-- **C10.** Under the precondition `len(ReturnSeries) ≥ 100` enforced
before fitting, every array access in the variance reconstruction is in
bounds: the seed slice of the first 100 returns has exactly 100 elements,
and the bounds-checked reconstruction (which fails on any out-of-range
read of `r_sq[t-1]` or `sigma2[t-1]` or write of `sigma2[99]` / `sigma2[t]`)
succeeds and produces exactly the unchecked variance path; moreover the
reconstruction is total: every entry from index 99 to `T-1` is defined. -/
theorem c10_reconstruction_in_bounds (om al be : ℚ) (r : List ℚ)
    (h : 100 ≤ r.length) :
    (r.take 100).length = 100 ∧
    sigma2Checked om al be r = some (sigma2List om al be r) ∧
    ∀ t, 99 ≤ t → t < r.length →
      ∃ v, (sigma2List om al be r)[t]? = some (some v) := by
  refine ⟨by rw [List.length_take]; omega, ?_, ?_⟩
  · rw [sigma2Checked, seedChecked_eq om al be r h]
    show (List.range' 100 (r.length - 100)).foldlM (stepChecked om al be r)
        (sigma2Upto om al be r 100) = _
    rw [foldlM_stepChecked om al be r (r.length - 100) 100 le_rfl (by omega),
      show 100 + (r.length - 100) = r.length by omega, sigma2Upto_top]
  · intro t ht99 htlen
    rw [sigma2List_getElem? om al be r t htlen, if_neg (by omega)]
    exact ⟨_, rfl⟩

theorem c10_reconstruction_in_bounds_witness :
    100 ≤ (List.replicate 100 (0 : ℚ)).length ∧
    (((List.replicate 100 (0 : ℚ)).take 100).length = 100 ∧
    sigma2Checked 0 0 0 (List.replicate 100 (0 : ℚ)) =
      some (sigma2List 0 0 0 (List.replicate 100 (0 : ℚ))) ∧
    ∀ t, 99 ≤ t → t < (List.replicate 100 (0 : ℚ)).length →
      ∃ v, (sigma2List 0 0 0 (List.replicate 100 (0 : ℚ)))[t]? = some (some v)) :=
  ⟨by simp, c10_reconstruction_in_bounds 0 0 0 _ (by simp)⟩

theorem any_isSome_replicate (n : ℕ) (c : ℚ) (h : 0 < n) :
    (List.replicate n (some c)).any Option.isSome = true := by
  cases n with
  | zero => omega
  | succ m =>
    rw [List.replicate_succ]
    simp

theorem outs_of_fit_none (E : Ext) (n : ℕ) (a : String × List (Option ℚ))
    (hf : E.fit ((logReturns E.logFn (validObs a.2)).map Prod.snd) = none) :
    retOut E n a = none ∧ stdOut E n a = none ∧ varOut E n a = none ∧ paramOut E a = none := by
  unfold retOut stdOut varOut paramOut
  by_cases h1 : (validObs a.2).length < 100
  · simp [h1]
  · by_cases h2 : (logReturns E.logFn (validObs a.2)).length < 100
    · simp [h1, h2]
    · simp [h1, h2, hf]

theorem outs_of_ppf_none (E : Ext) (n : ℕ) (a : String × List (Option ℚ)) (p : Params)
    (h1 : ¬ (validObs a.2).length < 100)
    (h2 : ¬ (logReturns E.logFn (validObs a.2)).length < 100)
    (hf : E.fit ((logReturns E.logFn (validObs a.2)).map Prod.snd) = some p)
    (hq : E.ppfM pLevel p.nu = none) :
    retOut E n a = none ∧ stdOut E n a = none ∧ varOut E n a = none ∧
      paramOut E a = some (fitRow a.1 p) := by
  refine ⟨?_, ?_, ?_, ?_⟩
  · unfold retOut
    rw [if_neg h1, if_neg h2]
    simp only [hf, hq]
  · unfold stdOut
    rw [if_neg h1, if_neg h2]
    simp only [hf, hq]
  · unfold varOut
    rw [if_neg h1, if_neg h2]
    simp only [hf, hq]
  · unfold paramOut
    rw [if_neg h1, if_neg h2]
    simp only [hf]

theorem stdOut_eq_some (E : Ext) (n : ℕ) (a : String × List (Option ℚ)) (p : Params) (q : ℚ)
    (h1 : ¬ (validObs a.2).length < 100)
    (h2 : ¬ (logReturns E.logFn (validObs a.2)).length < 100)
    (hf : E.fit ((logReturns E.logFn (validObs a.2)).map Prod.snd) = some p)
    (hq : E.ppfM pLevel p.nu = some q) :
    stdOut E n a = some (a.1, alignOpts n
      (((logReturns E.logFn (validObs a.2)).map Prod.fst).zip
        (stdevList E.sqrtFn
          (sigma2List p.om p.al p.be ((logReturns E.logFn (validObs a.2)).map Prod.snd))))) := by
  unfold stdOut
  rw [if_neg h1, if_neg h2]
  simp only [hf, hq]

/-- **C1.** The claim says an asset whose dense price series has fewer than
100 observations contributes no column or row to any of the five output
tables, *including* `Original_Prices`.  This is false: `df_prices` drops
only columns that are entirely missing (line 34) and is written unchanged
to `Original_Prices` (line 132).  An asset with 99 valid prices is skipped
by the length guard (line 54) yet its column appears in `Original_Prices`. -/
theorem c1_counterexample :
    (validObs ((List.replicate 99 (Cell.num 1)).map coerce)).length < 100 ∧
    (pipeline extOkFit 99 [("A", List.replicate 99 (Cell.num 1))]).1.map Prod.fst = ["A"] ∧
    (pipeline extOkFit 99 [("A", List.replicate 99 (Cell.num 1))]).2.returnsCols = [] ∧
    (pipeline extOkFit 99 [("A", List.replicate 99 (Cell.num 1))]).2.stdevCols = [] ∧
    (pipeline extOkFit 99 [("A", List.replicate 99 (Cell.num 1))]).2.varCols = [] ∧
    (pipeline extOkFit 99 [("A", List.replicate 99 (Cell.num 1))]).2.params = [] := by
  have hmap : (List.replicate 99 (Cell.num 1)).map coerce =
      List.replicate 99 (some (1 : ℚ)) := by
    rw [List.map_replicate]
    rfl
  have hlen : (validObs ((List.replicate 99 (Cell.num 1)).map coerce)).length = 99 := by
    rw [hmap, validObs_replicate]
    simp
  have hshort : (validObs ((List.replicate 99 (Cell.num 1)).map coerce)).length < 100 := by
    omega
  have hclean : cleanPrices [("A", List.replicate 99 (Cell.num 1))] =
      [("A", List.replicate 99 (some (1 : ℚ)))] := by
    unfold cleanPrices
    rw [List.map_cons, List.map_nil, hmap, List.filter_cons]
    rw [any_isSome_replicate 99 1 (by norm_num)]
    rfl
  have hshort' : (validObs (List.replicate 99 (some (1 : ℚ)))).length < 100 := by
    rw [← hmap]
    exact hshort
  obtain ⟨o1, o2, o3, o4⟩ :=
    outs_none_of_short extOkFit 99 ("A", List.replicate 99 (some (1 : ℚ))) hshort'
  refine ⟨hshort, ?_, ?_, ?_, ?_, ?_⟩
  · show (cleanPrices [("A", List.replicate 99 (Cell.num 1))]).map Prod.fst = ["A"]
    rw [hclean]
    rfl
  · show (runBatch extOkFit 99 (cleanPrices [("A", List.replicate 99 (Cell.num 1))])).returnsCols = []
    rw [hclean, runBatch_decomp]
    simp only [List.filterMap_cons, List.filterMap_nil, o1]
  · show (runBatch extOkFit 99 (cleanPrices [("A", List.replicate 99 (Cell.num 1))])).stdevCols = []
    rw [hclean, runBatch_decomp]
    simp only [List.filterMap_cons, List.filterMap_nil, o2]
  · show (runBatch extOkFit 99 (cleanPrices [("A", List.replicate 99 (Cell.num 1))])).varCols = []
    rw [hclean, runBatch_decomp]
    simp only [List.filterMap_cons, List.filterMap_nil, o3]
  · show (runBatch extOkFit 99 (cleanPrices [("A", List.replicate 99 (Cell.num 1))])).params = []
    rw [hclean, runBatch_decomp]
    simp only [List.filterMap_cons, List.filterMap_nil, o4]

/-- **C1 (amended).** An asset whose dense price series has fewer than 100
valid observations is skipped: it contributes no column to
`Returns_Scaled`, `GARCH_Stdev` or `GARCH_VaR` and no row to
`Model_Parameters` (the batch result equals that of the batch without the
asset, on those four components), but its column *does* remain in
`Original_Prices` whenever it has at least one valid observation — only an
entirely-missing column is dropped from `Original_Prices`. -/
theorem c1_amended_holds (E : Ext) (n : ℕ) (name : String) (cells : List Cell)
    (xs ys : List (String × List (Option ℚ)))
    (hshort : (validObs (cells.map coerce)).length < 100)
    (hval : (cells.map coerce).any Option.isSome = true) :
    (cleanPrices [(name, cells)]).map Prod.fst = [name] ∧
    (runBatch E n (xs ++ (name, cells.map coerce) :: ys)).returnsCols =
      (runBatch E n (xs ++ ys)).returnsCols ∧
    (runBatch E n (xs ++ (name, cells.map coerce) :: ys)).stdevCols =
      (runBatch E n (xs ++ ys)).stdevCols ∧
    (runBatch E n (xs ++ (name, cells.map coerce) :: ys)).varCols =
      (runBatch E n (xs ++ ys)).varCols ∧
    (runBatch E n (xs ++ (name, cells.map coerce) :: ys)).params =
      (runBatch E n (xs ++ ys)).params := by
  obtain ⟨o1, o2, o3, o4⟩ := outs_none_of_short E n (name, cells.map coerce) hshort
  refine ⟨?_, ?_, ?_, ?_, ?_⟩
  · unfold cleanPrices
    simp [List.filter_cons, hval]
  all_goals
    rw [runBatch_decomp, runBatch_decomp]
    simp [List.filterMap_append, List.filterMap_cons, o1, o2, o3, o4]

theorem c1_amended_witness :
    ((validObs ((List.replicate 99 (Cell.num 1)).map coerce)).length < 100 ∧
      ((List.replicate 99 (Cell.num 1)).map coerce).any Option.isSome = true) ∧
    ((cleanPrices [("A", List.replicate 99 (Cell.num 1))]).map Prod.fst = ["A"] ∧
    (runBatch extOkFit 99 ([] ++ ("A", (List.replicate 99 (Cell.num 1)).map coerce) :: [])).returnsCols =
      (runBatch extOkFit 99 ([] ++ [])).returnsCols ∧
    (runBatch extOkFit 99 ([] ++ ("A", (List.replicate 99 (Cell.num 1)).map coerce) :: [])).stdevCols =
      (runBatch extOkFit 99 ([] ++ [])).stdevCols ∧
    (runBatch extOkFit 99 ([] ++ ("A", (List.replicate 99 (Cell.num 1)).map coerce) :: [])).varCols =
      (runBatch extOkFit 99 ([] ++ [])).varCols ∧
    (runBatch extOkFit 99 ([] ++ ("A", (List.replicate 99 (Cell.num 1)).map coerce) :: [])).params =
      (runBatch extOkFit 99 ([] ++ [])).params) := by
  have hmap : (List.replicate 99 (Cell.num 1)).map coerce =
      List.replicate 99 (some (1 : ℚ)) := by
    rw [List.map_replicate]
    rfl
  have hshort : (validObs ((List.replicate 99 (Cell.num 1)).map coerce)).length < 100 := by
    rw [hmap, validObs_replicate]
    simp
  have hval : ((List.replicate 99 (Cell.num 1)).map coerce).any Option.isSome = true := by
    rw [hmap]
    exact any_isSome_replicate 99 1 (by norm_num)
  exact ⟨⟨hshort, hval⟩,
    c1_amended_holds extOkFit 99 "A" (List.replicate 99 (Cell.num 1)) [] [] hshort hval⟩

/-- **C2.** The claim says that whenever the per-asset pipeline fails after
preparation — the Model Fitter fails *or any later step raises* — no
partial output is recorded, in particular `Model_Parameters` contains no
row for the asset.  This is false for a failure after the fit: the
`model_params.append` (line 74) precedes the quantile call
`student_t.ppf` (line 99) inside the same `try`, so when the quantile call
raises, the parameter row survives while no column is added.  Concrete
input: one asset with 101 valid prices, a fitter that succeeds, a
quantile call that fails. -/
theorem c2_counterexample :
    ¬ (validObs (List.replicate 101 (some (1 : ℚ)))).length < 100 ∧
    extPpfFail.ppfM pLevel (1 : ℚ) = none ∧
    (runBatch extPpfFail 101 [("A", List.replicate 101 (some (1 : ℚ)))]).params =
      [fitRow "A" ⟨0, 0, 0, 1⟩] ∧
    (runBatch extPpfFail 101 [("A", List.replicate 101 (some (1 : ℚ)))]).returnsCols = [] ∧
    (runBatch extPpfFail 101 [("A", List.replicate 101 (some (1 : ℚ)))]).stdevCols = [] ∧
    (runBatch extPpfFail 101 [("A", List.replicate 101 (some (1 : ℚ)))]).varCols = [] := by
  have hlen : (validObs (List.replicate 101 (some (1 : ℚ)))).length = 101 := by
    rw [validObs_replicate]
    simp
  have h1 : ¬ (validObs (List.replicate 101 (some (1 : ℚ)))).length < 100 := by omega
  have h2 : ¬ (logReturns extPpfFail.logFn
      (validObs (List.replicate 101 (some (1 : ℚ))))).length < 100 := by
    rw [logReturns_length, hlen]
    omega
  obtain ⟨o1, o2, o3, o4⟩ := outs_of_ppf_none extPpfFail 101
    ("A", List.replicate 101 (some (1 : ℚ))) ⟨0, 0, 0, 1⟩ h1 h2 rfl rfl
  refine ⟨h1, rfl, ?_, ?_, ?_, ?_⟩
  · rw [runBatch_decomp]
    simp only [List.filterMap_cons, List.filterMap_nil, o4]
  · rw [runBatch_decomp]
    simp only [List.filterMap_cons, List.filterMap_nil, o1]
  · rw [runBatch_decomp]
    simp only [List.filterMap_cons, List.filterMap_nil, o2]
  · rw [runBatch_decomp]
    simp only [List.filterMap_cons, List.filterMap_nil, o3]

/-- **C2 (amended).** If the Model Fitter call itself fails, the
accumulated result state is unchanged (true atomic skip); but if the
pipeline fails after the parameter row was appended (the quantile call at
line 99 fails), the parameter row for the asset remains in
`Model_Parameters` while no column is added to `Returns_Scaled`,
`GARCH_Stdev` or `GARCH_VaR`. -/
theorem c2_amended_holds (E : Ext) (n : ℕ) (st : Tables) (a : String × List (Option ℚ)) :
    (E.fit ((logReturns E.logFn (validObs a.2)).map Prod.snd) = none →
      processAsset E n st a = st) ∧
    (∀ p : Params,
      ¬ (validObs a.2).length < 100 →
      ¬ (logReturns E.logFn (validObs a.2)).length < 100 →
      E.fit ((logReturns E.logFn (validObs a.2)).map Prod.snd) = some p →
      E.ppfM pLevel p.nu = none →
      processAsset E n st a = { st with params := st.params ++ [fitRow a.1 p] }) := by
  constructor
  · intro hf
    obtain ⟨o1, o2, o3, o4⟩ := outs_of_fit_none E n a hf
    rw [processAsset_decomp, o1, o2, o3, o4]
    cases st
    simp
  · intro p h1 h2 hf hq
    obtain ⟨o1, o2, o3, o4⟩ := outs_of_ppf_none E n a p h1 h2 hf hq
    rw [processAsset_decomp, o1, o2, o3, o4]
    cases st
    simp

theorem c2_amended_witness :
    (¬ (validObs (List.replicate 101 (some (1 : ℚ)))).length < 100 ∧
      ¬ (logReturns extPpfFail.logFn
        (validObs (List.replicate 101 (some (1 : ℚ))))).length < 100 ∧
      extPpfFail.fit ((logReturns extPpfFail.logFn
        (validObs (List.replicate 101 (some (1 : ℚ))))).map Prod.snd) =
          some ⟨0, 0, 0, 1⟩ ∧
      extPpfFail.ppfM pLevel (Params.mk 0 0 0 1).nu = none) ∧
    processAsset extPpfFail 101 initTables ("A", List.replicate 101 (some (1 : ℚ))) =
      { initTables with params := initTables.params ++ [fitRow "A" ⟨0, 0, 0, 1⟩] } := by
  have hlen : (validObs (List.replicate 101 (some (1 : ℚ)))).length = 101 := by
    rw [validObs_replicate]
    simp
  have h1 : ¬ (validObs (List.replicate 101 (some (1 : ℚ)))).length < 100 := by omega
  have h2 : ¬ (logReturns extPpfFail.logFn
      (validObs (List.replicate 101 (some (1 : ℚ))))).length < 100 := by
    rw [logReturns_length, hlen]
    omega
  exact ⟨⟨h1, h2, rfl, rfl⟩,
    (c2_amended_holds extPpfFail 101 initTables
      ("A", List.replicate 101 (some (1 : ℚ)))).2 ⟨0, 0, 0, 1⟩ h1 h2 rfl rfl⟩

/-- **C6.** The claim says the highlighted row in `GARCH_Stdev` /
`GARCH_VaR` is, for every successfully processed asset, the row of that
asset's first defined (seed) entry — the date at 0-based index 99 of its
ReturnSeries.  This is false: `ws.set_row(101, ...)` (line 130) highlights
one fixed sheet row (data position 100 of the shared date index), while an
asset whose column starts with a missing cell has its seed entry at shared
position 101.  Concrete input: one asset, shared index of 102 dates, first
cell missing, the remaining 101 cells valid; the asset is fully processed,
its seed row is position 101, the highlight sits at position 100. -/
theorem c6_counterexample :
    (runBatch extOkFit 102
      [("A", (none : Option ℚ) :: List.replicate 101 (some 1))]).stdevCols.map Prod.fst =
      ["A"] ∧
    seedRowPos extOkFit.logFn ((none : Option ℚ) :: List.replicate 101 (some 1)) = some 101 ∧
    highlightedDataPos = 100 := by
  have hvo : validObs ((none : Option ℚ) :: List.replicate 101 (some 1)) =
      (List.range' 1 101).map (fun j => (j, (1 : ℚ))) := by
    show validFrom 0 ((none : Option ℚ) :: List.replicate 101 (some 1)) = _
    rw [show validFrom 0 ((none : Option ℚ) :: List.replicate 101 (some 1)) =
        validFrom 1 (List.replicate 101 (some 1)) from rfl]
    exact validFrom_replicate 1 101 1
  have hlen : (validObs ((none : Option ℚ) :: List.replicate 101 (some 1))).length = 101 := by
    rw [hvo]
    simp
  have h1 : ¬ (validObs ((none : Option ℚ) :: List.replicate 101 (some 1))).length < 100 := by
    omega
  have h2 : ¬ (logReturns extOkFit.logFn
      (validObs ((none : Option ℚ) :: List.replicate 101 (some 1)))).length < 100 := by
    rw [logReturns_length, hlen]
    omega
  refine ⟨?_, ?_, rfl⟩
  · have hso := stdOut_eq_some extOkFit 102
      ("A", (none : Option ℚ) :: List.replicate 101 (some 1)) ⟨0, 0, 0, 1⟩ (-1) h1 h2 rfl rfl
    rw [runBatch_decomp]
    simp only [List.filterMap_cons, List.filterMap_nil, hso, List.map_cons, List.map_nil]
  · rw [seedRowPos, logReturns_map_fst, List.getElem?_tail,
      show (99 : ℕ) + 1 = 100 from rfl, hvo]
    simp [List.getElem?_map, List.getElem?_range']

/-- **C6 (amended).** The visual highlight is the single fixed sheet row
101 — data position 100 of the shared date index — for the whole sheet,
not a per-asset marker.  It coincides with an asset's first defined (seed)
row exactly when the asset's seed date falls at shared position 100; in
particular it does so whenever the asset's first 101 price cells are all
valid (no missing value before the seed). -/
theorem c6_amended_holds (f : ℚ → ℚ) (col : List (Option ℚ))
    (hdense : ∀ m, m < 101 → ∃ v : ℚ, col[m]? = some (some v)) :
    highlightedDataPos = 100 ∧ seedRowPos f col = some highlightedDataPos := by
  refine ⟨rfl, ?_⟩
  have h100 : ((validObs col).map Prod.fst)[100]? = some 100 := by
    have := validFrom_dense_pos col 0 100 (fun m hm => hdense m (by omega))
    simpa using this
  rw [seedRowPos, logReturns_map_fst, List.getElem?_tail,
    show (99 : ℕ) + 1 = 100 from rfl, h100]
  rfl

theorem c6_amended_witness :
    (∀ m, m < 101 →
      ∃ v : ℚ, (List.replicate 101 (some (1 : ℚ)))[m]? = some (some v)) ∧
    (highlightedDataPos = 100 ∧
      seedRowPos (fun _ => 0) (List.replicate 101 (some (1 : ℚ))) =
        some highlightedDataPos) :=
  ⟨fun m hm => ⟨1, by rw [List.getElem?_replicate, if_pos hm]⟩,
   c6_amended_holds (fun _ => 0) (List.replicate 101 (some (1 : ℚ)))
     (fun m hm => ⟨1, by rw [List.getElem?_replicate, if_pos hm]⟩)⟩

/-- **C7.** One asset's failure never aborts or alters any other asset's
processing or outputs — the batch result decomposes into per-asset
contributions, so replacing the middle asset `a` by any `b` leaves the
contributions of the surrounding assets `xs`, `ys` untouched — and the
progress report advances exactly once per asset to `(i+1)/N` regardless of
whether each asset succeeded, was skipped, or failed (it does not depend
on the assets' data at all). -/
theorem c7_isolation_progress (E : Ext) (n : ℕ)
    (xs ys : List (String × List (Option ℚ))) (a b : String × List (Option ℚ)) :
    (runBatch E n (xs ++ a :: ys)).progress = (runBatch E n (xs ++ b :: ys)).progress ∧
    (runBatch E n (xs ++ a :: ys)).progress =
      (List.range (xs ++ a :: ys).length).map
        (fun i : ℕ => ((i : ℚ) + 1) / (((xs ++ a :: ys).length : ℕ) : ℚ)) ∧
    (runBatch E n (xs ++ a :: ys)).returnsCols =
      xs.filterMap (retOut E n) ++ (retOut E n a).toList ++ ys.filterMap (retOut E n) ∧
    (runBatch E n (xs ++ a :: ys)).stdevCols =
      xs.filterMap (stdOut E n) ++ (stdOut E n a).toList ++ ys.filterMap (stdOut E n) ∧
    (runBatch E n (xs ++ a :: ys)).varCols =
      xs.filterMap (varOut E n) ++ (varOut E n a).toList ++ ys.filterMap (varOut E n) ∧
    (runBatch E n (xs ++ a :: ys)).params =
      xs.filterMap (paramOut E) ++ (paramOut E a).toList ++ ys.filterMap (paramOut E) := by
  have hlen : (xs ++ a :: ys).length = (xs ++ b :: ys).length := by simp
  refine ⟨?_, ?_, ?_, ?_, ?_, ?_⟩
  · rw [runBatch_decomp, runBatch_decomp]
    simp only []
    rw [hlen]
  · rw [runBatch_decomp]
  · cases h : retOut E n a <;>
      simp [runBatch_decomp, List.filterMap_append, List.filterMap_cons, h]
  · cases h : stdOut E n a <;>
      simp [runBatch_decomp, List.filterMap_append, List.filterMap_cons, h]
  · cases h : varOut E n a <;>
      simp [runBatch_decomp, List.filterMap_append, List.filterMap_cons, h]
  · cases h : paramOut E a <;>
      simp [runBatch_decomp, List.filterMap_append, List.filterMap_cons, h]

/-- **C9.** The pipeline is a deterministic pure function of its input:
two runs on equal tabular inputs produce equal `Original_Prices` tables
and equal loop results (`Returns_Scaled`, `GARCH_Stdev`, `GARCH_VaR`,
`Model_Parameters`).  The external collaborators `E` (log, sqrt, fitter,
quantile) are fixed deterministic functions, matching the spec's
"deterministic, no randomness". -/
theorem c9_deterministic (E : Ext) (n : ℕ) (cols1 cols2 : List (String × List Cell))
    (h : cols1 = cols2) :
    pipeline E n cols1 = pipeline E n cols2 := by
  rw [h]

theorem c9_deterministic_witness :
    [("A", [Cell.num 1])] = [("A", [Cell.num 1])] ∧
    pipeline extOkFit 1 [("A", [Cell.num 1])] = pipeline extOkFit 1 [("A", [Cell.num 1])] :=
  ⟨rfl, c9_deterministic extOkFit 1 [("A", [Cell.num 1])] [("A", [Cell.num 1])] rfl⟩

end GarchApp
